import Mathlib

/-!
Verification of the tennis-availability poller (`poll.py`): schema
normalizer (`tabularise`), row identity (`key_of`), diff engine
(`diff_tables`) and snapshot store (`save_rows` / `load_prev_rows`),
shallowly embedded in Lean.
-/

set_option maxRecDepth 4000

namespace Poll

/-- One cell value of a DataFrame row, as the Python runtime sees it.
`pnone` is Python `None`, `pnat` is pandas `NaT`, `pnan` is a float NaN.
`pts` is a pandas `Timestamp` (year, month, day, hour, minute, second,
millisecond). -/
inductive PyVal where
  | pstr (s : String)
  | pint (n : Int)
  | ptime (h m s : Nat)
  | pdate (y m d : Nat)
  | pts (y mo d h mi s ms : Nat)
  | pnone
  | pnat
  | pnan
  deriving DecidableEq, Repr

namespace PyVal

/-- `pd.notna`: false exactly on `None`, `NaT` and `NaN`. -/
def notna : PyVal → Bool
  | pnone => false
  | pnat => false
  | pnan => false
  | _ => true

/-- Zero-padded 2-digit decimal rendering. -/
def pad2 (n : Nat) : String :=
  if n < 10 then "0" ++ toString n else toString n

/-- Zero-padded 4-digit decimal rendering. -/
def pad4 (n : Nat) : String :=
  if n < 10 then "000" ++ toString n
  else if n < 100 then "00" ++ toString n
  else if n < 1000 then "0" ++ toString n
  else toString n

/-- Python `str()` on a cell value (`str(datetime.time(7,0))` is
`"07:00:00"`, `str(datetime.date(2025,6,1))` is `"2025-06-01"`, ...). -/
def pyStr : PyVal → String
  | pstr s => s
  | pint n => toString n
  | ptime h m s => pad2 h ++ ":" ++ pad2 m ++ ":" ++ pad2 s
  | pdate y m d => pad4 y ++ "-" ++ pad2 m ++ "-" ++ pad2 d
  | pts y mo d h mi s ms =>
      pad4 y ++ "-" ++ pad2 mo ++ "-" ++ pad2 d ++ " " ++
        pad2 h ++ ":" ++ pad2 mi ++ ":" ++ pad2 s ++
        (if ms = 0 then "" else "." ++ pad2 ms)
  | pnone => "None"
  | pnat => "NaT"
  | pnan => "nan"

/-- Python `==` on two cell values as it behaves inside a dict
comparison (`PyObject_RichCompareBool` with the identity shortcut):
the singletons `None` and `NaT` compare equal to themselves by
identity, while two NaN boxes produced by separate `to_dict` calls
are distinct objects and `nan == nan` is false. -/
def pyEq : PyVal → PyVal → Bool
  | pstr a, pstr b => a == b
  | pint a, pint b => a == b
  | ptime a b c, ptime a' b' c' => a == a' && b == b' && c == c'
  | pdate a b c, pdate a' b' c' => a == a' && b == b' && c == c'
  | pts a b c d e f g, pts a' b' c' d' e' f' g' =>
      a == a' && b == b' && c == c' && d == d' && e == e' && f == f' && g == g'
  | pnone, pnone => true
  | pnat, pnat => true
  | pnan, pnan => false
  | _, _ => false

end PyVal

open PyVal

/-- One canonical availability row: the eight columns produced by
`tabularise` and persisted by the snapshot store. -/
structure Row where
  Time : PyVal
  Date : PyVal
  Spaces : PyVal
  Venue : PyVal
  VenueSize : PyVal
  Age : PyVal
  ScrapedAt : PyVal
  URL : PyVal
  deriving DecidableEq, Repr

/-- `key_of(row)`: `f"{date_str}|{time_str}|{venue_str}"` where each
component is `str(value)` if `pd.notna(value)` else `""`. -/
def key_of (r : Row) : String :=
  (if notna r.Date then pyStr r.Date else "") ++ "|" ++
  (if notna r.Time then pyStr r.Time else "") ++ "|" ++
  (if notna r.Venue then pyStr r.Venue else "")

/-- Python `row.to_dict() == other.to_dict()`: both dicts carry the same
eight column names, so the comparison is `pyEq` on the eight cells. -/
def rowEqPy (a b : Row) : Bool :=
  pyEq a.Time b.Time && pyEq a.Date b.Date && pyEq a.Spaces b.Spaces &&
  pyEq a.Venue b.Venue && pyEq a.VenueSize b.VenueSize && pyEq a.Age b.Age &&
  pyEq a.ScrapedAt b.ScrapedAt && pyEq a.URL b.URL

/-- Lookup in the dict `{key_of(row): row.to_dict() for row in rs}`:
a later row with the same key overwrites an earlier one (dict
comprehension, last write wins). -/
def lookupLast (rs : List Row) (k : String) : Option Row :=
  rs.foldl (fun acc r => if key_of r = k then some r else acc) none

/-- Deduplication, modelling the passage of the key lists through
Python `set`. -/
def dedupKeys : List String → List String
  | [] => []
  | x :: xs => if x ∈ xs then dedupKeys xs else x :: dedupKeys xs

/-- Insertion into a `≤`-sorted list of strings. -/
def insertSorted (s : String) : List String → List String
  | [] => [s]
  | x :: xs => if s ≤ x then s :: x :: xs else x :: insertSorted s xs

/-- Python `sorted` on a list of strings (insertion sort; any stable
comparison sort yields the same result on deduplicated keys). -/
def sortStrs (l : List String) : List String :=
  l.foldr insertSorted []

/-- `diff_tables(curr, prev)`: keys of rows that changed.  Empty `prev`
returns all current keys (or `[]` when `curr` is also empty); empty
`curr` returns all previous keys; otherwise the union of the two key
sets is sorted and a key is kept when it is missing from one side or
the two row dicts compare unequal. -/
def diff_tables (curr prev : List Row) : List String :=
  if prev.isEmpty then
    (if curr.isEmpty then [] else curr.map key_of)
  else if curr.isEmpty then
    prev.map key_of
  else
    let allKeys := sortStrs (dedupKeys (prev.map key_of ++ curr.map key_of))
    allKeys.filter fun k =>
      match lookupLast prev k, lookupLast curr k with
      | some a, some b => !(rowEqPy a b)
      | _, _ => true

theorem mem_dedupKeys {a : String} : ∀ {l : List String}, a ∈ dedupKeys l ↔ a ∈ l := by
  intro l
  induction l with
  | nil => simp [dedupKeys]
  | cons x xs ih =>
    simp only [dedupKeys]
    by_cases h : x ∈ xs
    · rw [if_pos h, ih, List.mem_cons]
      exact ⟨Or.inr, fun hc => hc.elim (fun he => he ▸ h) id⟩
    · rw [if_neg h, List.mem_cons, List.mem_cons, ih]

theorem mem_insertSorted {a s : String} :
    ∀ {l : List String}, a ∈ insertSorted s l ↔ a = s ∨ a ∈ l := by
  intro l
  induction l with
  | nil => simp [insertSorted]
  | cons x xs ih =>
    simp only [insertSorted]
    by_cases h : s ≤ x
    · rw [if_pos h]; simp [List.mem_cons]
    · rw [if_neg h]
      simp only [List.mem_cons, ih]
      tauto

theorem mem_sortStrs {a : String} : ∀ {l : List String}, a ∈ sortStrs l ↔ a ∈ l := by
  intro l
  induction l with
  | nil => simp [sortStrs]
  | cons x xs ih =>
    simp only [sortStrs, List.foldr_cons] at *
    rw [mem_insertSorted, ih, List.mem_cons]

theorem lookupLast_go_mono (k : String) :
    ∀ (rs : List Row) (a : Row),
      (rs.foldl (fun acc r => if key_of r = k then some r else acc) (some a)).isSome := by
  intro rs
  induction rs with
  | nil => intro a; rfl
  | cons x xs ih =>
    intro a
    simp only [List.foldl_cons]
    by_cases hx : key_of x = k
    · rw [if_pos hx]; exact ih x
    · rw [if_neg hx]; exact ih a

theorem lookupLast_isSome (k : String) :
    ∀ (rs : List Row) (acc : Option Row) (r : Row), r ∈ rs → key_of r = k →
      (rs.foldl (fun acc r => if key_of r = k then some r else acc) acc).isSome := by
  intro rs
  induction rs with
  | nil => intro acc r hmem _; exact absurd hmem (List.not_mem_nil r)
  | cons x xs ih =>
    intro acc r hmem hk
    simp only [List.foldl_cons]
    rcases List.mem_cons.mp hmem with rfl | hm
    · rw [if_pos hk]
      exact lookupLast_go_mono k xs r
    · exact ih _ r hm hk

theorem lookupLast_go_mem (k : String) :
    ∀ (rs : List Row) (acc : Option Row) (r : Row),
      rs.foldl (fun acc r => if key_of r = k then some r else acc) acc = some r →
      (r ∈ rs ∧ key_of r = k) ∨ acc = some r := by
  intro rs
  induction rs with
  | nil => intro acc r h; exact Or.inr h
  | cons x xs ih =>
    intro acc r h
    simp only [List.foldl_cons] at h
    rcases ih _ r h with ⟨hm, hk⟩ | hacc
    · exact Or.inl ⟨List.mem_cons_of_mem _ hm, hk⟩
    · by_cases hx : key_of x = k
      · rw [if_pos hx] at hacc
        injection hacc with he
        exact Or.inl ⟨he ▸ List.mem_cons_self x xs, he ▸ hx⟩
      · rw [if_neg hx] at hacc
        exact Or.inr hacc

theorem lookupLast_mem {k : String} {rs : List Row} {r : Row}
    (h : lookupLast rs k = some r) : r ∈ rs ∧ key_of r = k := by
  rcases lookupLast_go_mem k rs none r h with hg | hbad
  · exact hg
  · exact absurd hbad (by simp)

/-- A row as the normalizer produces it for a scraped slot. -/
def rowCourtA : Row :=
  { Time := .pstr "07:00", Date := .pdate 2025 6 1, Spaces := .pint 3,
    Venue := .pstr "Court A", VenueSize := .pnone, Age := .pnone,
    ScrapedAt := .pts 2025 6 1 7 0 0 0, URL := .pstr "https://example.com/x" }

/-- A row one of whose cells is a float `NaN` (e.g. a missing `Spaces`
count after a load, where JSON `null` in a numeric column becomes NaN). -/
def rowNanSpaces : Row :=
  { Time := .pstr "07:00", Date := .pdate 2025 6 1, Spaces := .pnan,
    Venue := .pstr "Court A", VenueSize := .pnone, Age := .pnone,
    ScrapedAt := .pts 2025 6 1 7 0 0 0, URL := .pstr "https://example.com/x" }

/-- C4 (counterexample): `diff_tables R R` is not empty for every row
sequence `R`.  A row carrying a float NaN cell (here `Spaces`) compares
unequal to itself under Python dict equality, because the two
`to_dict()` calls box the NaN into distinct objects and `nan == nan` is
false — so diffing the sequence against itself reports its key as
changed. -/
theorem diff_tables_self_ne_nil_on_nan :
    diff_tables [rowNanSpaces] [rowNanSpaces] ≠ [] := by decide

/-- C4 (amended): for every row sequence `R` all of whose rows compare
equal to themselves under Python dict equality (i.e. no cell is a float
NaN), `diff_tables R R` is empty. -/
theorem diff_tables_self_eq_nil (R : List Row)
    (h : ∀ r ∈ R, rowEqPy r r = true) : diff_tables R R = [] := by
  cases R with
  | nil => rfl
  | cons r0 rs =>
    simp only [diff_tables, List.isEmpty_cons, Bool.false_eq_true, if_false]
    rw [List.filter_eq_nil_iff]
    intro k hk
    have hk' : k ∈ (r0 :: rs).map key_of := by
      rcases List.mem_append.mp (mem_dedupKeys.mp (mem_sortStrs.mp hk)) with h1 | h1 <;>
        exact h1
    obtain ⟨r, hr, hkey⟩ := List.mem_map.mp hk'
    have hs : (lookupLast (r0 :: rs) k).isSome :=
      lookupLast_isSome k (r0 :: rs) none r hr hkey
    obtain ⟨a, ha⟩ := Option.isSome_iff_exists.mp hs
    obtain ⟨hamem, -⟩ := lookupLast_mem ha
    rw [ha]
    simp [h a hamem]

/-- C4 (amended, witness): a concrete NaN-free singleton sequence
diffed against itself yields the empty change list. -/
theorem diff_tables_self_eq_nil_witness :
    (∀ r ∈ [rowCourtA], rowEqPy r r = true) ∧
      diff_tables [rowCourtA] [rowCourtA] = [] :=
  ⟨by decide, diff_tables_self_eq_nil [rowCourtA] (by decide)⟩

/-- C5: an empty previous snapshot makes every current key changed, an
empty current row set makes every previous key changed, and two empty
inputs give the empty change list. -/
theorem diff_tables_edge_cases :
    (∀ curr : List Row, curr ≠ [] → diff_tables curr [] = curr.map key_of) ∧
    (∀ prev : List Row, prev ≠ [] → diff_tables [] prev = prev.map key_of) ∧
    diff_tables [] [] = [] := by
  refine ⟨?_, ?_, rfl⟩
  · intro curr hc
    simp [diff_tables, List.isEmpty_iff, hc]
  · intro prev hp
    simp [diff_tables, List.isEmpty_iff, hp]

/-- C5 (witness): the edge cases at a concrete one-row sequence. -/
theorem diff_tables_edge_cases_witness :
    diff_tables [rowCourtA] [] = [key_of rowCourtA] ∧
    diff_tables [] [rowCourtA] = [key_of rowCourtA] ∧
    diff_tables [] [] = [] :=
  ⟨diff_tables_edge_cases.1 [rowCourtA] (by decide),
   diff_tables_edge_cases.2.1 [rowCourtA] (by decide),
   diff_tables_edge_cases.2.2⟩

/-- Splitting a character list at a separator absent from both prefixes
is unambiguous. -/
theorem append_pipe_inj :
    ∀ (a b c d : List Char), '|' ∉ a → '|' ∉ b →
      a ++ '|' :: c = b ++ '|' :: d → a = b ∧ c = d := by
  intro a
  induction a with
  | nil =>
    intro b c d _ hb h
    cases b with
    | nil =>
      simp only [List.nil_append] at h
      exact ⟨rfl, (List.cons.inj h).2⟩
    | cons y ys =>
      simp only [List.nil_append, List.cons_append] at h
      exact absurd ((List.cons.inj h).1 ▸ List.mem_cons_self y ys) hb
  | cons x xs ih =>
    intro b c d ha hb h
    cases b with
    | nil =>
      simp only [List.cons_append, List.nil_append] at h
      exact absurd ((List.cons.inj h).1 ▸ List.mem_cons_self x xs) ha
    | cons y ys =>
      simp only [List.cons_append] at h
      obtain ⟨hxy, htail⟩ := List.cons.inj h
      have ha' : '|' ∉ xs := fun hm => ha (List.mem_cons_of_mem _ hm)
      have hb' : '|' ∉ ys := fun hm => hb (List.mem_cons_of_mem _ hm)
      obtain ⟨h1, h2⟩ := ih ys c d ha' hb' htail
      exact ⟨by rw [hxy, h1], h2⟩

/-- Two rows with a pipe inside a field. -/
def rowVenuePipe : Row :=
  { Time := .pstr "07:00", Date := .pdate 2025 6 1, Spaces := .pint 1,
    Venue := .pstr "a|b", VenueSize := .pnone, Age := .pnone,
    ScrapedAt := .pts 2025 6 1 7 0 0 0, URL := .pstr "u" }

def rowTimePipe : Row :=
  { Time := .pstr "07:00|a", Date := .pdate 2025 6 1, Spaces := .pint 1,
    Venue := .pstr "b", VenueSize := .pnone, Age := .pnone,
    ScrapedAt := .pts 2025 6 1 7 0 0 0, URL := .pstr "u" }

/-- A row whose `Date` cell is the string `"2025-06-01"` rather than a
date object. -/
def rowDateString : Row :=
  { Time := .pstr "07:00", Date := .pstr "2025-06-01", Spaces := .pint 1,
    Venue := .pstr "Court A", VenueSize := .pnone, Age := .pnone,
    ScrapedAt := .pts 2025 6 1 7 0 0 0, URL := .pstr "u" }

def rowDateObj : Row :=
  { Time := .pstr "07:00", Date := .pdate 2025 6 1, Spaces := .pint 1,
    Venue := .pstr "Court A", VenueSize := .pnone, Age := .pnone,
    ScrapedAt := .pts 2025 6 1 7 0 0 0, URL := .pstr "u" }

/-- C7 (counterexample): `key_of` is not collision-free across fields.
A `"|"` inside `Venue` (resp. `Time`) shifts the field boundary, and
`str()` rendering identifies a date object with its ISO string, so two
distinct `(Date, Time, Venue)` triples can share a key. -/
theorem key_of_collision :
    ((rowVenuePipe.Date, rowVenuePipe.Time, rowVenuePipe.Venue) ≠
        (rowTimePipe.Date, rowTimePipe.Time, rowTimePipe.Venue) ∧
      key_of rowVenuePipe = key_of rowTimePipe) ∧
    ((rowDateString.Date, rowDateString.Time, rowDateString.Venue) ≠
        (rowDateObj.Date, rowDateObj.Time, rowDateObj.Venue) ∧
      key_of rowDateString = key_of rowDateObj) := by decide

/-- C7 (amended): `key_of` is a deterministic, pure function of the
`(Date, Time, Venue)` triple, and it is injective on triples whose
fields are string values such that the `Date` and `Time` strings
contain no `'|'` separator. -/
theorem key_of_pure_and_injective :
    (∀ r1 r2 : Row, r1.Date = r2.Date → r1.Time = r2.Time →
      r1.Venue = r2.Venue → key_of r1 = key_of r2) ∧
    (∀ (r1 r2 : Row) (d1 t1 v1 d2 t2 v2 : String),
      r1.Date = .pstr d1 → r1.Time = .pstr t1 → r1.Venue = .pstr v1 →
      r2.Date = .pstr d2 → r2.Time = .pstr t2 → r2.Venue = .pstr v2 →
      '|' ∉ d1.data → '|' ∉ t1.data → '|' ∉ d2.data → '|' ∉ t2.data →
      key_of r1 = key_of r2 →
      (r1.Date, r1.Time, r1.Venue) = (r2.Date, r2.Time, r2.Venue)) := by
  constructor
  · intro r1 r2 hd ht hv
    unfold key_of
    rw [hd, ht, hv]
  · intro r1 r2 d1 t1 v1 d2 t2 v2 hd1 ht1 hv1 hd2 ht2 hv2 nd1 nt1 nd2 nt2 hk
    unfold key_of at hk
    rw [hd1, ht1, hv1, hd2, ht2, hv2] at hk
    simp only [PyVal.notna, if_pos, PyVal.pyStr] at hk
    have hdata := congrArg String.data hk
    simp only [String.data_append, List.append_assoc,
      List.singleton_append] at hdata
    obtain ⟨hdd, rest⟩ := append_pipe_inj _ _ _ _ nd1 nd2 hdata
    obtain ⟨htt, hvv⟩ := append_pipe_inj _ _ _ _ nt1 nt2 rest
    rw [hd1, ht1, hv1, hd2, ht2, hv2,
      String.ext hdd, String.ext htt, String.ext hvv]

/-- C7 (amended, witness): the two halves applied at concrete rows. -/
theorem key_of_pure_and_injective_witness :
    key_of rowCourtA = key_of rowCourtA ∧
    (rowDateString.Date, rowDateString.Time, rowDateString.Venue) =
      (rowDateString.Date, rowDateString.Time, rowDateString.Venue) :=
  ⟨key_of_pure_and_injective.1 rowCourtA rowCourtA rfl rfl rfl,
   key_of_pure_and_injective.2 rowDateString rowDateString
     "2025-06-01" "07:00" "Court A" "2025-06-01" "07:00" "Court A"
     (by decide) (by decide) (by decide) (by decide) (by decide) (by decide)
     (by decide) (by decide) (by decide) (by decide) rfl⟩

/-! ## Snapshot store: `save_rows` / `load_prev_rows` -/

/-- One JSON value in the persisted snapshot (`orient="records"`). -/
inductive JVal where
  | jstr (s : String)
  | jnum (n : Int)
  | jnull
  deriving DecidableEq, Repr

/-- Zero-padded 3-digit decimal rendering. -/
def pad3 (n : Nat) : String :=
  if n < 10 then "00" ++ toString n
  else if n < 100 then "0" ++ toString n
  else toString n

/-- `df.to_json(..., date_format="iso")` on one cell: strings and
numbers pass through, dates and timestamps become ISO strings,
`datetime.time` renders as `HH:MM:SS`, and `None` / `NaN` / `NaT`
all become JSON `null`. -/
def serVal : PyVal → JVal
  | .pstr s => .jstr s
  | .pint n => .jnum n
  | .ptime h m s => .jstr (PyVal.pad2 h ++ ":" ++ PyVal.pad2 m ++ ":" ++ PyVal.pad2 s)
  | .pdate y m d =>
      .jstr (PyVal.pad4 y ++ "-" ++ PyVal.pad2 m ++ "-" ++ PyVal.pad2 d ++ "T00:00:00.000")
  | .pts y mo d h mi s ms =>
      .jstr (PyVal.pad4 y ++ "-" ++ PyVal.pad2 mo ++ "-" ++ PyVal.pad2 d ++ "T" ++
        PyVal.pad2 h ++ ":" ++ PyVal.pad2 mi ++ ":" ++ PyVal.pad2 s ++ "." ++ pad3 ms)
  | .pnone => .jnull
  | .pnat => .jnull
  | .pnan => .jnull

/-- One record of the persisted JSON array: the eight columns, as JSON
values. -/
structure SerRow where
  Time : JVal
  Date : JVal
  Spaces : JVal
  Venue : JVal
  VenueSize : JVal
  Age : JVal
  ScrapedAt : JVal
  URL : JVal
  deriving DecidableEq, Repr

def serRow (r : Row) : SerRow :=
  { Time := serVal r.Time, Date := serVal r.Date, Spaces := serVal r.Spaces,
    Venue := serVal r.Venue, VenueSize := serVal r.VenueSize,
    Age := serVal r.Age, ScrapedAt := serVal r.ScrapedAt, URL := serVal r.URL }

def serializeRows (rows : List Row) : List SerRow :=
  rows.map serRow

def digitsToNat (cs : List Char) : Nat :=
  cs.foldl (fun n c => n * 10 + (c.toNat - 48)) 0

def allDigits (cs : List Char) : Bool :=
  cs.all (·.isDigit)

/-- Split a character list on `':'` (the groups `str.split(":")` would
produce). -/
def splitColons : List Char → List (List Char)
  | [] => [[]]
  | c :: cs =>
    let r := splitColons cs
    if c = ':' then [] :: r
    else
      match r with
      | [] => [[c]]
      | g :: gs => (c :: g) :: gs

/-- A well-formed `strptime` digit group: one or two digits. -/
def digitGroup (cs : List Char) : Bool :=
  allDigits cs && decide (1 ≤ cs.length) && decide (cs.length ≤ 2)

/-- `strptime`-style `%H:%M:%S` parse as `pd.to_datetime(x,
format="%H:%M:%S")` applies it: exactly three colon-separated groups of
one or two digits spanning the whole string, with the hour below 24,
the minute below 60 and the second at most 61. -/
def parseHMS (s : String) : Option (Nat × Nat × Nat) :=
  match splitColons s.data with
  | [h, m, sec] =>
    if digitGroup h && digitGroup m && digitGroup sec then
      let hv := digitsToNat h
      let mv := digitsToNat m
      let sv := digitsToNat sec
      if hv ≤ 23 && mv ≤ 59 && sv ≤ 61 then some (hv, mv, sv) else none
    else none
  | _ => none

/-- Milliseconds from an ISO fractional-seconds digit group. -/
def msOfFrac (frac : List Char) : Nat :=
  digitsToNat ((frac ++ ['0', '0', '0']).take 3)

/-- ISO date / datetime parse, as `pd.to_datetime` (no explicit format)
accepts the snapshot's own serialization: `YYYY-MM-DD`, optionally
followed by `T` or a space, `HH:MM:SS` and a fractional-seconds
group. -/
def parseISO (s : String) : Option (Nat × Nat × Nat × Nat × Nat × Nat × Nat) :=
  match s.data with
  | y1 :: y2 :: y3 :: y4 :: '-' :: m1 :: m2 :: '-' :: d1 :: d2 :: rest =>
    if allDigits [y1, y2, y3, y4, m1, m2, d1, d2] then
      let y := digitsToNat [y1, y2, y3, y4]
      let mo := digitsToNat [m1, m2]
      let d := digitsToNat [d1, d2]
      if 1 ≤ mo && mo ≤ 12 && 1 ≤ d && d ≤ 31 then
        match rest with
        | [] => some (y, mo, d, 0, 0, 0, 0)
        | sep :: h1 :: h2 :: ':' :: mi1 :: mi2 :: ':' :: s1 :: s2 :: rest2 =>
          if (sep = 'T' || sep = ' ') && allDigits [h1, h2, mi1, mi2, s1, s2] then
            let h := digitsToNat [h1, h2]
            let mi := digitsToNat [mi1, mi2]
            let sec := digitsToNat [s1, s2]
            if h ≤ 23 && mi ≤ 59 && sec ≤ 61 then
              match rest2 with
              | [] => some (y, mo, d, h, mi, sec, 0)
              | '.' :: frac =>
                if allDigits frac && !frac.isEmpty then
                  some (y, mo, d, h, mi, sec, msOfFrac frac)
                else none
              | _ => none
            else none
          else none
        | _ => none
      else none
    else none
  | _ => none

/-- Gregorian date from a count of days since 1970-01-01 (the standard
`civil_from_days` algorithm), used to give epoch numbers their calendar
reading. -/
def civilFromDays (z0 : Int) : Int × Nat × Nat :=
  let z := z0 + 719468
  let era : Int := (if 0 ≤ z then z else z - 146096) / 146097
  let doe : Nat := (z - era * 146097).toNat
  let yoe : Nat := (doe - doe / 1460 + doe / 36524 - doe / 146096) / 365
  let y : Int := (yoe : Int) + era * 400
  let doy : Nat := doe - (365 * yoe + yoe / 4 - yoe / 100)
  let mp : Nat := (5 * doy + 2) / 153
  let d : Nat := doy - (153 * mp + 2) / 5 + 1
  let m : Nat := if mp < 10 then mp + 3 else mp - 9
  (if m ≤ 2 then y + 1 else y, m, d)

/-- Calendar components (y, month, day, hour, minute, second) of an
epoch instant given in seconds. -/
def epochCivil (n : Int) : Nat × Nat × Nat × Nat × Nat × Nat :=
  let days := n.fdiv 86400
  let secs := (n - days * 86400).toNat
  let c := civilFromDays days
  (c.1.toNat, c.2.1, c.2.2, secs / 3600, secs % 3600 / 60, secs % 60)

/-- The `Time` column conversion on load:
`pd.to_datetime(•, format="%H:%M:%S", errors="coerce").dt.time` —
strings in strict `%H:%M:%S` shape become time objects, everything else
(12-hour strings, nulls, numbers) coerces to `NaT`. -/
def loadTime : JVal → PyVal
  | .jstr s =>
    match parseHMS s with
    | some (h, m, sec) => .ptime h m sec
    | none => .pnat
  | .jnum _ => .pnat
  | .jnull => .pnat

/-- The `Date` column conversion on load:
`pd.to_datetime(•, errors="coerce").dt.date`; numbers are read as epoch
nanoseconds, unparseable strings and nulls coerce to `NaT`. -/
def loadDate : JVal → PyVal
  | .jstr s =>
    match parseISO s with
    | some (y, mo, d, _, _, _, _) => .pdate y mo d
    | none => .pnat
  | .jnum n =>
    let c := epochCivil (n.fdiv 1000000000)
    .pdate c.1 c.2.1 c.2.2.1
  | .jnull => .pnat

/-- The `Scraped At` column conversion on load:
`pd.to_datetime(•, errors="coerce")`. -/
def loadTs : JVal → PyVal
  | .jstr s =>
    match parseISO s with
    | some (y, mo, d, h, mi, sec, ms) => .pts y mo d h mi sec ms
    | none => .pnat
  | .jnum n =>
    let c := epochCivil (n.fdiv 1000000000)
    .pts c.1 c.2.1 c.2.2.1 c.2.2.2.1 c.2.2.2.2.1 c.2.2.2.2.2 0
  | .jnull => .pnat

/-- Columns `pd.read_json` leaves untouched: strings and numbers pass
through, `null` loads as a missing value. -/
def loadPlain : JVal → PyVal
  | .jstr s => .pstr s
  | .jnum n => .pint n
  | .jnull => .pnone

def deserRow (r : SerRow) : Row :=
  { Time := loadTime r.Time, Date := loadDate r.Date,
    Spaces := loadPlain r.Spaces, Venue := loadPlain r.Venue,
    VenueSize := loadPlain r.VenueSize, Age := loadPlain r.Age,
    ScrapedAt := loadTs r.ScrapedAt, URL := loadPlain r.URL }

/-- A file as the loader can encounter it: a parseable snapshot (a JSON
array of records) or unparseable bytes. -/
inductive RawFile where
  | good (rows : List SerRow)
  | bad
  deriving DecidableEq, Repr

/-- The filesystem state the store manipulates: file contents by path
plus the set of directories that exist. -/
structure FS where
  files : String → Option RawFile
  dirs : List String

/-- `os.path.dirname`: everything before the last `/`, the empty string
when there is none. -/
def dirname (s : String) : String :=
  ⟨((s.data.reverse.dropWhile (· ≠ '/')).drop 1).reverse⟩

/-- `os.makedirs(d, exist_ok=True)`: fails on the empty path, otherwise
records the directory. -/
def mkdirs (fs : FS) (d : String) : Option FS :=
  if d = "" then none else some { fs with dirs := d :: fs.dirs }

/-- Writing a file. -/
def fswrite (fs : FS) (p : String) (c : RawFile) : FS :=
  { fs with files := fun q => if q = p then some c else fs.files q }

/-- `os.replace(src, dst)`: atomic rename. -/
def fsreplace (fs : FS) (src dst : String) : FS :=
  { fs with files := fun q =>
      if q = dst then fs.files src
      else if q = src then none
      else fs.files q }

/-- `save_rows(path, df)`: create the containing directory, serialize
onto `path + ".tmp"`, then atomically replace `path`. -/
def save_rows (fs : FS) (path : String) (rows : List Row) : Option FS :=
  (mkdirs fs (dirname path)).map fun fs1 =>
    fsreplace (fswrite fs1 (path ++ ".tmp") (.good (serializeRows rows)))
      (path ++ ".tmp") path

/-- Every filesystem state `save_rows` passes through, in order; an
interrupted run stops after some prefix of these states. -/
def save_steps (fs : FS) (path : String) (rows : List Row) : List FS :=
  match mkdirs fs (dirname path) with
  | none => [fs]
  | some fs1 =>
    let fs2 := fswrite fs1 (path ++ ".tmp") (.good (serializeRows rows))
    [fs, fs1, fs2, fsreplace fs2 (path ++ ".tmp") path]

/-- `load_prev_rows(path)`: a missing file yields the empty row set and
the "starting fresh" log line (the boolean); an unparseable file
propagates the parse error; otherwise the records are read back and the
`Time` / `Date` / `Scraped At` columns converted. -/
def load_prev_rows (fs : FS) (path : String) : Except Unit (List Row × Bool) :=
  match fs.files path with
  | none => .ok ([], true)
  | some .bad => .error ()
  | some (.good rs) => .ok (rs.map deserRow, false)

/-- The empty filesystem. -/
def fs0 : FS := ⟨fun _ => none, []⟩

theorem ne_append_tmp (s : String) : s ≠ s ++ ".tmp" := by
  intro h
  have hlen := congrArg (fun t : String => t.data.length) h
  simp only [String.data_append, List.length_append] at hlen
  have h4 : (".tmp" : String).data.length = 4 := rfl
  rw [h4] at hlen
  omega

theorem dirname_append_tmp (s : String) : dirname (s ++ ".tmp") = dirname s := by
  unfold dirname
  congr 1
  rw [String.data_append]
  show (((s.data ++ ['.', 't', 'm', 'p']).reverse.dropWhile (· ≠ '/')).drop 1).reverse = _
  rw [List.reverse_append]
  simp [List.dropWhile_cons]

/-- C8: `save_rows` writes the serialized rows to `path + ".tmp"` — a
location in the same containing directory — after creating the target
directory, then atomically replaces the canonical path; at every
intermediate state the canonical path holds either its original content
or the complete new snapshot, and the final state holds the new
snapshot with the directory created. -/
theorem save_rows_atomic (fs : FS) (path : String) (rows : List Row)
    (h : dirname path ≠ "") :
    (∀ s ∈ save_steps fs path rows,
        s.files path = fs.files path ∨
        s.files path = some (.good (serializeRows rows))) ∧
    (∃ fs', save_rows fs path rows = some fs' ∧
        fs'.files path = some (.good (serializeRows rows)) ∧
        dirname path ∈ fs'.dirs) ∧
    dirname (path ++ ".tmp") = dirname path := by
  unfold save_rows save_steps mkdirs
  rw [if_neg h]
  refine ⟨?_, ⟨_, rfl, ?_, ?_⟩, dirname_append_tmp path⟩
  · intro s hs
    simp only [Option.map_some'] at hs
    rcases List.mem_cons.mp hs with rfl | hs
    · exact Or.inl rfl
    rcases List.mem_cons.mp hs with rfl | hs
    · exact Or.inl rfl
    rcases List.mem_cons.mp hs with rfl | hs
    · exact Or.inl (by simp [fswrite, if_neg (ne_append_tmp path)])
    rcases List.mem_cons.mp hs with rfl | hs
    · exact Or.inr (by simp [fsreplace, fswrite])
    · exact absurd hs (List.not_mem_nil s)
  · simp [fsreplace, fswrite]
  · simp [fsreplace, fswrite]

/-- C8 (witness): saving onto the default cache path from an empty
filesystem passes through the atomic sequence and lands the full
snapshot. -/
theorem save_rows_atomic_witness :
    dirname "cache/state.json" ≠ "" ∧
    ((∃ fs', save_rows fs0 "cache/state.json" [rowCourtA] = some fs' ∧
        fs'.files "cache/state.json" =
          some (.good (serializeRows [rowCourtA])) ∧
        dirname "cache/state.json" ∈ fs'.dirs) ∧
      dirname ("cache/state.json" ++ ".tmp") = dirname "cache/state.json") :=
  ⟨by decide,
   (save_rows_atomic fs0 "cache/state.json" [rowCourtA] (by decide)).2.1,
   (save_rows_atomic fs0 "cache/state.json" [rowCourtA] (by decide)).2.2⟩

/-- C9: the loader returns the empty row set together with the
"starting fresh" log line exactly when the snapshot file is absent; a
file that is present but unparseable propagates an error instead of
being read as empty. -/
theorem load_prev_rows_error_policy :
    (∀ (fs : FS) (path : String), fs.files path = none →
        load_prev_rows fs path = .ok ([], true)) ∧
    (∀ (fs : FS) (path : String), fs.files path = some .bad →
        load_prev_rows fs path = .error ()) ∧
    (∀ (fs : FS) (path : String) (out : List Row),
        load_prev_rows fs path = .ok (out, true) →
        fs.files path = none ∧ out = []) := by
  refine ⟨?_, ?_, ?_⟩
  · intro fs path h
    unfold load_prev_rows
    rw [h]
  · intro fs path h
    unfold load_prev_rows
    rw [h]
  · intro fs path out h
    unfold load_prev_rows at h
    cases hf : fs.files path with
    | none =>
      rw [hf] at h
      injection h with h1
      exact ⟨rfl, (Prod.mk.inj h1).1.symm⟩
    | some rf =>
      rw [hf] at h
      cases rf with
      | bad => exact absurd h (by simp)
      | good rs =>
        injection h with h1
        exact absurd (Prod.mk.inj h1).2 (by simp)

/-- An unparseable snapshot sitting at the default cache path. -/
def fsBad : FS :=
  ⟨fun p => if p = "cache/state.json" then some .bad else none, []⟩

/-- C9 (witness): the three clauses at concrete filesystem states. -/
theorem load_prev_rows_error_policy_witness :
    load_prev_rows fs0 "cache/state.json" = .ok ([], true) ∧
    load_prev_rows fsBad "cache/state.json" = .error () ∧
    (fs0.files "cache/state.json" = none ∧ ([] : List Row) = []) :=
  ⟨load_prev_rows_error_policy.1 fs0 "cache/state.json" rfl,
   load_prev_rows_error_policy.2.1 fsBad "cache/state.json" (by decide),
   load_prev_rows_error_policy.2.2 fs0 "cache/state.json" []
     (load_prev_rows_error_policy.1 fs0 "cache/state.json" rfl)⟩

/-- The row the current normalizer produces for a bookable indoor slot:
`Time` carries the API's 12-hour rendering. -/
def row12h : Row :=
  { Time := .pstr "6:00 am", Date := .pdate 2025 12 30, Spaces := .pint 3,
    Venue := .pstr "Islington Tennis Centre", VenueSize := .pnone,
    Age := .pnone, ScrapedAt := .pts 2025 12 29 19 30 16 183,
    URL := .pstr "https://bookings.better.org.uk/location/islington-tennis-centre/tennis-court-indoor/2025-12-30/by-time/slot/06:00-07:00" }

/-- C1: the save/load round trip does not reproduce the rows the
pipeline itself persists.  `tabularise` emits `Time` in 12-hour form
(`"6:00 am"`); `load_prev_rows` parses the `Time` column with the
strict format `%H:%M:%S` and `errors="coerce"`, so the stored value
comes back as `NaT` while every other field survives. -/
theorem save_load_loses_time :
    (save_rows fs0 "cache/state.json" [row12h]).map
        (fun fs' => load_prev_rows fs' "cache/state.json") =
      some (.ok ([{ row12h with Time := .pnat }], false)) ∧
    ({ row12h with Time := PyVal.pnat } : Row) ≠ row12h := by
  exact ⟨rfl, by decide⟩

/-! ## Schema normalizer: `tabularise` on the flat per-slot records of
the current API -/

/-- The nested `starts_at` / `ends_at` object of one API record. -/
structure TimePair where
  format_12_hour : String
  format_24_hour : String
  deriving DecidableEq, Repr

/-- One record of the raw DataFrame `tabularise` receives, with the
derived columns the function adds (all `none` before it runs).  `none`
in a source field is a null cell. -/
structure RawRec where
  starts_at : Option TimePair := none
  ends_at : Option TimePair := none
  price : Option String := none
  timestamp : Option Int := none
  date : Option String := none
  spaces : Option Int := none
  location : Option String := none
  venue : Option String := none
  court : Option String := none
  starts_at_12h : Option String := none
  starts_at_24h : Option String := none
  ends_at_12h : Option String := none
  ends_at_24h : Option String := none
  price_formatted : Option String := none
  timestamp_dt : Option Int := none
  dateParsed : Option (Nat × Nat × Nat) := none
  deriving DecidableEq, Repr

/-- Flatten `starts_at` into its 12-hour and 24-hour renderings
(`x.get(...)` when the cell is a dict, pass-through otherwise). -/
def addStartCols (recs : List RawRec) : List RawRec :=
  recs.map fun rec =>
    { rec with starts_at_12h := rec.starts_at.map (·.format_12_hour),
               starts_at_24h := rec.starts_at.map (·.format_24_hour) }

/-- Flatten `ends_at` likewise. -/
def addEndCols (recs : List RawRec) : List RawRec :=
  recs.map fun rec =>
    { rec with ends_at_12h := rec.ends_at.map (·.format_12_hour),
               ends_at_24h := rec.ends_at.map (·.format_24_hour) }

/-- Flatten `price` into `price_formatted`. -/
def addPriceCol (recs : List RawRec) : List RawRec :=
  recs.map fun rec => { rec with price_formatted := rec.price }

/-- `pd.to_datetime(df["timestamp"], unit="s", errors="coerce")`:
numeric epoch seconds convert, a null coerces to `NaT`. -/
def addTsCol (recs : List RawRec) : List RawRec :=
  recs.map fun rec => { rec with timestamp_dt := rec.timestamp }

/-- `pd.to_datetime(df["date"], errors="coerce").dt.date`: `none` in
`dateParsed` after this step is a `NaT` (null or unparseable input). -/
def addDateCol (recs : List RawRec) : List RawRec :=
  recs.map fun rec =>
    { rec with dateParsed :=
        rec.date.bind fun s => (parseISO s).map fun p => (p.1, p.2.1, p.2.2.1) }

/-- `construct_url` plus the final column selection: one canonical
`Row` per record, in order, with no record dropped. -/
def rowOfRec (rec : RawRec) : Row :=
  { Time := match rec.starts_at_12h with
      | some s => .pstr s
      | none => .pnone,
    Date := match rec.dateParsed with
      | some (y, m, d) => .pdate y m d
      | none => .pnat,
    Spaces := match rec.spaces with
      | some n => .pint n
      | none => .pnone,
    Venue := match rec.location with
      | some s => .pstr s
      | none => .pnone,
    VenueSize := .pnone,
    Age := .pnone,
    ScrapedAt := match rec.timestamp_dt with
      | some n =>
        let c := epochCivil n
        .pts c.1 c.2.1 c.2.2.1 c.2.2.2.1 c.2.2.2.2.1 c.2.2.2.2.2 0
      | none => .pnat,
    URL := match rec.venue, rec.court, rec.dateParsed, rec.starts_at_24h with
      | some v, some c, some (y, m, d), some t =>
        .pstr ("https://bookings.better.org.uk/location/" ++ v ++ "/" ++ c ++
          "/" ++ PyVal.pad4 y ++ "-" ++ PyVal.pad2 m ++ "-" ++ PyVal.pad2 d ++
          "/by-time/slot/" ++ t)
      | _, _, _, _ => .pnone }

def buildResult (recs : List RawRec) : List Row :=
  recs.map rowOfRec

/-- `tabularise` as a pure function: empty input returns the empty
frame, otherwise the column pipeline runs and every record yields one
row. -/
def tabularise (recs : List RawRec) : List Row :=
  if recs.isEmpty then []
  else buildResult (addDateCol (addTsCol (addPriceCol (addEndCols (addStartCols recs)))))

/-- A heap of DataFrames, for tracking which frame each statement of
`tabularise` writes to. -/
def Heap := Nat → List RawRec

/-- `df = df.copy()`. -/
def copyTo (h : Heap) (src dst : Nat) : Heap :=
  fun r => if r = dst then h src else h r

/-- An in-place column assignment `df[...] = ...` on the frame at
`dst`. -/
def updAt (h : Heap) (dst : Nat) (f : List RawRec → List RawRec) : Heap :=
  fun r => if r = dst then f (h r) else h r

/-- `tabularise` as the stateful program the source writes: after the
emptiness check it copies the input frame to a fresh location and every
subsequent column assignment targets the copy; the returned frame is
built fresh. -/
def tabulariseProg (h : Heap) (input fresh : Nat) : Heap × List Row :=
  if (h input).isEmpty then (h, [])
  else
    let h1 := copyTo h input fresh
    let h2 := updAt h1 fresh addStartCols
    let h3 := updAt h2 fresh addEndCols
    let h4 := updAt h3 fresh addPriceCol
    let h5 := updAt h4 fresh addTsCol
    let h6 := updAt h5 fresh addDateCol
    (h6, buildResult (h6 fresh))

/-- C10: `tabularise` never mutates its input frame — after it runs,
the input location of the heap is untouched, and the result coincides
with the pure column pipeline applied to the input's original
contents. -/
theorem tabularise_no_mutation (h : Heap) (input fresh : Nat)
    (hne : fresh ≠ input) :
    (tabulariseProg h input fresh).1 input = h input ∧
    (tabulariseProg h input fresh).2 = tabularise (h input) := by
  have hni : input ≠ fresh := Ne.symm hne
  unfold tabulariseProg tabularise
  by_cases he : (h input).isEmpty
  · simp [he]
  · simp only [he, Bool.false_eq_true, if_false]
    exact ⟨by simp [copyTo, updAt, hni], by simp [copyTo, updAt]⟩

/-- A populated indoor-court record as the API returns it. -/
def recIndoor : RawRec :=
  { starts_at := some ⟨"6:00 am", "06:00"⟩,
    ends_at := some ⟨"7:00 am", "07:00"⟩,
    price := some "£12.40",
    timestamp := some 1767074400,
    date := some "2025-12-30",
    spaces := some 3,
    location := some "Islington Tennis Centre",
    venue := some "islington-tennis-centre",
    court := some "tennis-court-indoor" }

/-- C10 (witness): running the stateful `tabularise` on a concrete
one-frame heap leaves the input frame unchanged and returns the pure
pipeline's rows. -/
theorem tabularise_no_mutation_witness :
    (tabulariseProg (fun r => if r = 0 then [recIndoor] else []) 0 1).1 0 =
      (fun r => if r = 0 then [recIndoor] else []) 0 ∧
    (tabulariseProg (fun r => if r = 0 then [recIndoor] else []) 0 1).2 =
      tabularise ((fun r => if r = 0 then [recIndoor] else []) 0) :=
  tabularise_no_mutation (fun r => if r = 0 then [recIndoor] else []) 0 1
    (by decide)

/-- The same record with an unparseable `date` cell. -/
def badDateRec : RawRec :=
  { starts_at := some ⟨"7:00 am", "07:00"⟩,
    ends_at := some ⟨"8:00 am", "08:00"⟩,
    price := some "£12.40",
    timestamp := some 1767078000,
    date := some "not-a-date",
    spaces := some 4,
    location := some "Islington Tennis Centre",
    venue := some "islington-tennis-centre",
    court := some "tennis-court-indoor" }

/-- C3: the normalizer does not enforce the identity invariant.  A
record whose `date` fails to parse is not dropped: it yields an output
row whose `Date` is `NaT` (so `pd.notna` is false), and `key_of` passes
it to the comparison with an empty date component. -/
theorem tabularise_keeps_null_date_row :
    (tabularise [badDateRec]).length = 1 ∧
    (tabularise [badDateRec]).map (fun r => PyVal.notna r.Date) = [false] ∧
    (tabularise [badDateRec]).map key_of =
      ["|7:00 am|Islington Tennis Centre"] := by
  refine ⟨rfl, by decide, by decide⟩

/-! ## Schema normalizer, Shape A (per-day nested records)

The Shape-A normalizer is absent from the current source — `poll.py`'s
`tabularise` was rewritten for the flat per-slot payload, and only the
Shape-A test suite remains — so the definitions below are modelled from
the specification (§4.1, Shape A), using the field names the tests
exercise. -/

/-- Modelled from the spec: one per-venue entry of a Shape-A day record
(venue name, per-venue capacity, scrape timestamp, freshness label and
deep link); the Shape-A normalizer consuming it is missing from the
source. -/
structure VenueEntry where
  name : String
  total_spaces : Int
  scraped_at : String
  freshness : String
  booking_url : String
  deriving DecidableEq, Repr

/-- Modelled from the spec: one day record (day label without a year,
total-spaces count, venue-entry list). -/
structure DayRecord where
  day : String
  total_spaces : Int
  spaces : List VenueEntry
  deriving DecidableEq, Repr

/-- Modelled from the spec: one slot entry carrying a `fromTime` and
its day-prefixed fields. -/
structure SlotEntry where
  fromTime : String
  days : List DayRecord
  deriving DecidableEq, Repr

/-- First `\d{4}-\d{2}-\d{2}` occurrence in a character list
(regex-search style: try each position left to right). -/
def matchISOAt : List Char → Option (Nat × Nat × Nat)
  | y1 :: y2 :: y3 :: y4 :: '-' :: m1 :: m2 :: '-' :: d1 :: d2 :: _ =>
    if allDigits [y1, y2, y3, y4, m1, m2, d1, d2] then
      some (digitsToNat [y1, y2, y3, y4], digitsToNat [m1, m2],
        digitsToNat [d1, d2])
    else none
  | _ => none

def findISOAux : List Char → Option (Nat × Nat × Nat)
  | [] => none
  | c :: cs =>
    match matchISOAt (c :: cs) with
    | some r => some r
    | none => findISOAux cs

/-- Modelled from the spec: extract the full ISO date embedded in the
deep-link URL's path, if any. -/
def findISODate (s : String) : Option (Nat × Nat × Nat) :=
  findISOAux s.data

def monthNum (m : String) : Option Nat :=
  if m = "Jan" then some 1 else if m = "Feb" then some 2
  else if m = "Mar" then some 3 else if m = "Apr" then some 4
  else if m = "May" then some 5 else if m = "Jun" then some 6
  else if m = "Jul" then some 7 else if m = "Aug" then some 8
  else if m = "Sep" then some 9 else if m = "Oct" then some 10
  else if m = "Nov" then some 11 else if m = "Dec" then some 12
  else none

/-- Modelled from the spec: parse a yearless day label such as
`"30 Dec"` or `"2 Jan"` into (day, month). -/
def parseDayLabel (s : String) : Option (Nat × Nat) :=
  match s.data with
  | d1 :: d2 :: ' ' :: rest =>
    if d1.isDigit && d2.isDigit then
      (monthNum ⟨rest⟩).map fun m => (digitsToNat [d1, d2], m)
    else none
  | d1 :: ' ' :: rest =>
    if d1.isDigit then (monthNum ⟨rest⟩).map fun m => (digitsToNat [d1], m)
    else none
  | _ => none

/-- Modelled from the spec: resolve the day record's true calendar
date — parse a full ISO date out of the deep link; when the URL has
none, fall back to the day label read under the current calendar
year. -/
def resolveDate (currentYear : Nat) (dayLabel url : String) : PyVal :=
  match findISODate url with
  | some (y, m, d) => .pdate y m d
  | none =>
    match parseDayLabel dayLabel with
    | some (d, m) => .pdate currentYear m d
    | none => .pnat

/-- Modelled from the spec: one AvailabilityRow per venue entry —
`Spaces` from the day record's total, `VenueSize` from the entry's own
capacity, `Age` from the freshness label. -/
def shapeARow (currentYear : Nat) (fromTime : String) (dr : DayRecord)
    (e : VenueEntry) : Row :=
  { Time := .pstr fromTime,
    Date := resolveDate currentYear dr.day e.booking_url,
    Spaces := .pint dr.total_spaces,
    Venue := .pstr e.name,
    VenueSize := .pint e.total_spaces,
    Age := .pstr e.freshness,
    ScrapedAt := match parseISO e.scraped_at with
      | some (y, mo, d, h, mi, s, ms) => .pts y mo d h mi s ms
      | none => .pnat,
    URL := .pstr e.booking_url }

/-- Modelled from the spec: the rows one day record contributes — a day
record with an empty venue-entry list is skipped outright. -/
def dayRows (currentYear : Nat) (fromTime : String) (dr : DayRecord) :
    List Row :=
  if dr.spaces.isEmpty then []
  else dr.spaces.map (shapeARow currentYear fromTime dr)

/-- Modelled from the spec: the Shape-A normalizer — for each slot
entry, for each day-prefixed field, emit the day record's rows. -/
def tabulariseShapeA (currentYear : Nat) (payload : List SlotEntry) :
    List Row :=
  payload.flatMap fun slot =>
    slot.days.flatMap (dayRows currentYear slot.fromTime)

def entryDec : VenueEntry :=
  { name := "Test Venue", total_spaces := 1,
    scraped_at := "2025-12-29T19:30:16.183", freshness := "6 mins ago",
    booking_url := "https://example.com/2025-12-30/slot/07:00-08:00" }

def entryJan : VenueEntry :=
  { name := "Test Venue", total_spaces := 1,
    scraped_at := "2025-12-29T19:30:16.183", freshness := "6 mins ago",
    booking_url := "https://example.com/2026-01-02/slot/07:00-08:00" }

def dayDec : DayRecord :=
  { day := "30 Dec", total_spaces := 1, spaces := [entryDec] }

def dayJan : DayRecord :=
  { day := "02 Jan", total_spaces := 1, spaces := [entryJan] }

/-- The year-boundary payload of the spec's testable property: two day
labels `"30 Dec"` and `"02 Jan"` whose deep links embed `2025-12-30`
and `2026-01-02`. -/
def boundaryPayload : List SlotEntry :=
  [{ fromTime := "07:00", days := [dayDec, dayJan] }]

/-- C2: the Shape-A normalizer resolves each row's `Date` from the full
ISO date embedded in the entry's deep link, falls back to the day label
under the current calendar year only when the URL embeds none, and in
particular maps the year-boundary payload to `2025-12-30` and
`2026-01-02`, not both under one year. -/
theorem shapeA_year_inference :
    (∀ (cy : Nat) (ft : String) (dr : DayRecord) (e : VenueEntry)
        (y m d : Nat), findISODate e.booking_url = some (y, m, d) →
        (shapeARow cy ft dr e).Date = .pdate y m d) ∧
    (∀ (cy : Nat) (ft : String) (dr : DayRecord) (e : VenueEntry)
        (d m : Nat), findISODate e.booking_url = none →
        parseDayLabel dr.day = some (d, m) →
        (shapeARow cy ft dr e).Date = .pdate cy m d) ∧
    (tabulariseShapeA 2025 boundaryPayload).map Row.Date =
      [.pdate 2025 12 30, .pdate 2026 1 2] := by
  refine ⟨?_, ?_, by decide⟩
  · intro cy ft dr e y m d hf
    simp [shapeARow, resolveDate, hf]
  · intro cy ft dr e d m hf hl
    simp [shapeARow, resolveDate, hf, hl]

/-- An entry whose deep link embeds no date. -/
def entryNoDate : VenueEntry :=
  { name := "Test Venue", total_spaces := 1,
    scraped_at := "2025-12-29T19:30:16.183", freshness := "6 mins ago",
    booking_url := "https://example.com/slot" }

def dayNoDate : DayRecord :=
  { day := "02 Jan", total_spaces := 1, spaces := [entryNoDate] }

/-- C2 (witness): URL-embedded dates win; without one, the label is
read under the current year. -/
theorem shapeA_year_inference_witness :
    (shapeARow 2025 "07:00" dayDec entryDec).Date = .pdate 2025 12 30 ∧
    (shapeARow 2025 "07:00" dayNoDate entryNoDate).Date = .pdate 2025 1 2 :=
  ⟨shapeA_year_inference.1 2025 "07:00" dayDec entryDec 2025 12 30 (by decide),
   shapeA_year_inference.2.1 2025 "07:00" dayNoDate entryNoDate 2 1
     (by decide) (by decide)⟩

/-- C6: a Shape-A day record whose venue-entry list is empty
contributes zero rows, both in isolation and inside a payload. -/
theorem shapeA_empty_spaces_no_rows :
    (∀ (cy : Nat) (ft : String) (dr : DayRecord), dr.spaces = [] →
        dayRows cy ft dr = []) ∧
    (∀ (cy : Nat) (ft : String) (dr : DayRecord), dr.spaces = [] →
        tabulariseShapeA cy [⟨ft, [dr]⟩] = []) := by
  constructor
  · intro cy ft dr h
    simp [dayRows, h]
  · intro cy ft dr h
    simp [tabulariseShapeA, dayRows, h]

/-- The empty-spaces day record of the test suite. -/
def dayEmpty : DayRecord := { day := "30 Dec", total_spaces := 0, spaces := [] }

/-- C6 (witness): the test suite's empty-spaces payload yields zero
rows. -/
theorem shapeA_empty_spaces_no_rows_witness :
    dayRows 2025 "07:00" dayEmpty = [] ∧
    tabulariseShapeA 2025 [⟨"07:00", [dayEmpty]⟩] = [] :=
  ⟨shapeA_empty_spaces_no_rows.1 2025 "07:00" dayEmpty rfl,
   shapeA_empty_spaces_no_rows.2 2025 "07:00" dayEmpty rfl⟩

end Poll
